import Mathlib

/-!
# Verification of the osgrep sync core

Shallow embedding of the osgrep repository's sync engine, watcher callback,
store-id derivation and lifecycle stop hooks, with theorems checking the
natural-language specification against the code.

String values are modelled by Lean `String`; filesystem and remote-store
effects are modelled by explicit call traces.
-/

namespace Osgrep

/-! ## Store-name sanitization (`sanitizeStoreName` and friends) -/

/-- Is `c` kept (not replaced) by the JS regex `/[^a-z0-9-]/gi`?
With the `i` flag the kept characters are `a-z`, `A-Z`, `0-9`, `-`
(code points 97-122, 65-90, 48-57 and 45). -/
def isKeepChar (c : Char) : Bool :=
  (97 ≤ c.toNat && c.toNat ≤ 122) || (65 ≤ c.toNat && c.toNat ≤ 90) ||
  (48 ≤ c.toNat && c.toNat ≤ 57) || c.toNat == 45

/-- Per-character action of `sanitizeStoreName`: the replace pass keeps
`[a-zA-Z0-9-]` and replaces everything else by `-`; the subsequent
`toLowerCase` lowercases basic latin letters (this is `Char.toLower`). -/
def sanitizeChar (c : Char) : Char :=
  if isKeepChar c then c.toLower else '-'

/-- `sanitizeStoreName` from the repo:
`name.replace(/[^a-z0-9-]/gi, "-").toLowerCase()`.
Since the replacement is per character and `toLowerCase` is per character,
the composition is a single character map. -/
def sanitizeStoreName (name : String) : String :=
  String.mk (name.data.map sanitizeChar)

/-- Is `c` in the output alphabet `[a-z0-9-]`
(code points 97-122, 48-57 and 45)? -/
def isLowerKeepChar (c : Char) : Bool :=
  (97 ≤ c.toNat && c.toNat ≤ 122) || (48 ≤ c.toNat && c.toNat ≤ 57) || c.toNat == 45

/-! ## Auto store-id derivation (`extractRepoInfoFromUrl`, `getAutoStoreId`) -/

/-- JS `String.prototype.toLowerCase` restricted to the basic-latin mapping
the repo relies on (store names and URLs are ASCII). -/
def toLowerStr (s : String) : String :=
  String.mk (s.data.map Char.toLower)

/-- Split a character list at every separator, keeping empty pieces between
consecutive separators — the semantics of a JS single-character-class
regex split. -/
def splitChars (sep : Char → Bool) : List Char → List (List Char)
  | [] => [[]]
  | c :: cs =>
    if sep c then [] :: splitChars sep cs
    else
      match splitChars sep cs with
      | [] => [[c]]
      | p :: ps => (c :: p) :: ps

/-- JS `s.split(<character class>)` on a string. -/
def splitStr (sep : Char → Bool) (s : String) : List String :=
  (splitChars sep s.data).map String.mk

/-- `url.replace(/\.git$/, "")`: drop a trailing `.git` if present. -/
def stripDotGit (url : String) : String :=
  if url.data.reverse.take 4 == ['t', 'i', 'g', '.'] then
    String.mk (url.data.take (url.data.length - 4))
  else url

/-- `cleanUrl.split(/[\/:]/)` — split on every `/` or `:`, keeping empty
pieces between consecutive separators, exactly as the JS regex split does. -/
def urlParts (url : String) : List String :=
  splitStr (fun c => c == '/' || c == ':') (stripDotGit url)

/-- The TS fallback `nonEmptyParts[nonEmptyParts.length - 1]?.toLowerCase() || "unknown-repo"`:
an out-of-range index is `undefined` and an empty lowercased string is falsy,
both yielding `"unknown-repo"`. -/
def lastLowerOrUnknown (l : List String) : String :=
  match l.getLast? with
  | some p => if (toLowerStr p).length = 0 then "unknown-repo" else toLowerStr p
  | none => "unknown-repo"

/-- `extractRepoInfoFromUrl` from the repo: strip `.git`, split on `/` and `:`,
keep nonempty parts, and join the last two as `owner-repo` lowercased;
otherwise fall back to the last part or `"unknown-repo"`. -/
def extractRepoInfoFromUrl (url : String) : String :=
  let nonEmptyParts := (urlParts url).filter (fun p => 0 < p.length)
  if 2 ≤ nonEmptyParts.length then
    match nonEmptyParts.getLast?, nonEmptyParts[nonEmptyParts.length - 2]? with
    | some repo, some owner =>
      if 0 < repo.length && 0 < owner.length then
        toLowerStr (owner ++ "-" ++ repo)
      else lastLowerOrUnknown nonEmptyParts
    | _, _ => lastLowerOrUnknown nonEmptyParts
  else lastLowerOrUnknown nonEmptyParts

/-- Node `path.basename` on an absolute path: the last nonempty
slash-separated segment (empty for the filesystem root). -/
def basename (p : String) : String :=
  (((splitStr (fun c => c == '/') p).filter (fun s => 0 < s.length)).getLast?).getD ""

/-- Injected git-metadata accessor (`createGit()` in the repo).
A thrown git error and a `null` result both send `getAutoStoreId` to the
directory-based fallback, so both are modelled as `none`. -/
structure GitMeta where
  repositoryRoot : String → Option String
  remoteUrl : String → Option String

/-- The directory-based fallback of `getAutoStoreId`:
`sanitizeStoreName(folderName + "-" + sha256hex(absolutePath).substring(0, 8))`.
The SHA-256 hex digest is the injected `hashHex` parameter. -/
def fallbackStoreId (hashHex : String → String) (absolutePath : String) : String :=
  sanitizeStoreName
    (basename absolutePath ++ "-" ++ String.mk ((hashHex absolutePath).data.take 8))

/-- `getAutoStoreId` from the repo, as a pure function of the resolved
absolute path, an injected git-metadata accessor and an injected SHA-256
hex function: prefer the sanitized `owner-repo` form of the git remote URL,
falling back to `dirname-hash` naming. -/
def getAutoStoreId (hashHex : String → String) (git : GitMeta)
    (absolutePath : String) : String :=
  match git.repositoryRoot absolutePath with
  | some root =>
    match git.remoteUrl root with
    | some remote => sanitizeStoreName (extractRepoInfoFromUrl remote)
    | none => fallbackStoreId hashHex absolutePath
  | none => fallbackStoreId hashHex absolutePath

/-! ## Initial sync engine and watcher

The `initialSync`, `uploadFile` and `isIgnoredByGit` bodies live in
`src/utils`, which is not part of the shipped sources; their behavior is
modelled from the spec (§4.3, §4.4, §3) and pinned by the repo's own test
suite for `initialSync`. The watcher callback itself is present in
`src/index.ts` and is embedded from that source. -/

/-- Modelled from the spec: External-Identifier derivation, the missing
`uploadFile`'s identifier scheme in `src/utils`. Per §3 the identifier is "a
stable string derived deterministically from a file's path relative to
the sync root (e.g., root-relative path string)": the root-relative path
itself. -/
def externalIdOf (relPath : String) : String :=
  relPath

/-- `path.join(watchRoot, filename)` for a root and a root-relative name. -/
def pathJoin (root relPath : String) : String :=
  root ++ "/" ++ relPath

/-- Root-relative form of an absolute path under `root`: drop the root
prefix and the following separator. -/
def relativeTo (root p : String) : String :=
  String.mk (p.data.drop (root.data.length + 1))

/-- A candidate local file seen by the walker: its absolute path and a
content fingerprint (content hash or modification metadata — the spec
leaves the choice open; the model only compares fingerprints for
equality). -/
structure LocalFile where
  path : String
  fingerprint : Nat
deriving DecidableEq

/-- One remote-store call issued during a pass. `indexDoc` carries the
uploaded file's absolute path (the content source), the external
identifier, and the fingerprint of the uploaded content. -/
inductive StoreCall
  | indexDoc (path : String) (externalId : String) (fingerprint : Nat)
  | deleteDoc (externalId : String)
  | createFTSIndex
  | createVectorIndex
deriving DecidableEq

/-- Result of one `initialSync` pass: the reported counters, the full
ordered trace of remote-store calls, and the remote listing as it stands
after the pass (used as the input listing of a subsequent pass). -/
structure SyncResult where
  total : Nat
  indexed : Nat
  calls : List StoreCall
  remoteAfter : List (String × Nat)
deriving DecidableEq

/-- The walker's candidate enumeration: every file yielded by `getFiles`
that the Ignore Classifier does not mark as ignored. -/
def candidatesOf (ign : String → Bool) (files : List LocalFile) : List LocalFile :=
  files.filter (fun f => !ign f.path)

/-- Modelled from the spec: the dedup test of the missing `initialSync` in
`src/utils` (§4.3 step 3). Upload is needed unless `forceFullReindex` is
off, the identifier is already present remotely, and the fingerprint
indicates no change. -/
def needsUpload (force : Bool) (remote : List (String × Nat))
    (extId : String) (fp : Nat) : Bool :=
  force ||
    match remote.lookup extId with
    | some rfp => rfp != fp
    | none => true

/-- Modelled from the spec: the missing `initialSync` of `src/utils`
(§4.3, pinned by the repo's `initialSync` edge-case tests). One pass:
list the remote documents, walk the tree filtering through the Ignore
Classifier, index each candidate that needs upload, delete each remote
identifier with no local counterpart, and materialize the full-text and
vector indexes only when at least one document was indexed or deleted. -/
def initialSync (ign : String → Bool) (remote : List (String × Nat))
    (files : List LocalFile) (root : String) (force : Bool) : SyncResult :=
  let cands := candidatesOf ign files
  let extId := fun f : LocalFile => externalIdOf (relativeTo root f.path)
  let toIndex := cands.filter (fun f => needsUpload force remote (extId f) f.fingerprint)
  let localIds := cands.map extId
  let toDelete := (remote.map Prod.fst).filter (fun i => !localIds.contains i)
  let indexCalls := toIndex.map (fun f => StoreCall.indexDoc f.path (extId f) f.fingerprint)
  let deleteCalls := toDelete.map StoreCall.deleteDoc
  let matCalls :=
    if toIndex.length + toDelete.length ≠ 0 then
      [StoreCall.createFTSIndex, StoreCall.createVectorIndex]
    else []
  { total := cands.length
    indexed := toIndex.length
    calls := indexCalls ++ deleteCalls ++ matCalls
    remoteAfter := cands.map (fun f => (extId f, f.fingerprint)) }

/-- One `fs.watch` notification: the event type and the possibly-absent
raw filename (root-relative), as delivered to the callback in
`src/index.ts`. -/
structure WatchEvent where
  eventType : String
  rawFilename : Option String

/-- The slice of `fs.statSync` results the callback looks at. -/
structure FileStat where
  isFile : Bool
deriving DecidableEq

/-- Environment of the watcher callback: the watch root, the filesystem
stat (where `none` models `statSync` throwing), the Ignore Classifier
(`isIgnoredByGit`, re-evaluated per event), and the eventual outcome of
the `uploadFile` promise for a path. -/
structure WatchEnv where
  root : String
  stat : String → Option FileStat
  isIgnored : String → Bool
  uploadOutcome : String → Except String Unit

/-- Effect trace of one watcher-callback invocation: stat calls, ignore
checks, upload (index) attempts as `(filePath, externalId)` pairs, delete
calls, and logged per-file upload errors. -/
structure WatchTrace where
  statCalls : List String
  ignoreChecks : List String
  uploads : List (String × String)
  deletes : List String
  errorLogs : List String
deriving DecidableEq

/-- The trace of a callback invocation that returned before any effect. -/
def emptyTrace : WatchTrace :=
  ⟨[], [], [], [], []⟩

/-- The `fs.watch` callback of `src/index.ts`, embedded step for step:
bail out on a missing or empty filename; resolve the path under the root;
bail out when `statSync` throws or the path is not a regular file; bail
out when the Ignore Classifier marks the path ignored; otherwise attempt
the upload, logging (never rethrowing) a rejection. The callback issues no
delete calls. -/
def handleWatchEvent (env : WatchEnv) (ev : WatchEvent) : WatchTrace :=
  match ev.rawFilename with
  | none => emptyTrace
  | some filename =>
    if filename.length = 0 then emptyTrace
    else
      let filePath := pathJoin env.root filename
      match env.stat filePath with
      | none => { emptyTrace with statCalls := [filePath] }
      | some st =>
        if !st.isFile then { emptyTrace with statCalls := [filePath] }
        else if env.isIgnored filePath then
          { emptyTrace with statCalls := [filePath], ignoreChecks := [filePath] }
        else
          match env.uploadOutcome filePath with
          | Except.ok _ =>
            { emptyTrace with
              statCalls := [filePath]
              ignoreChecks := [filePath]
              uploads := [(filePath, externalIdOf filename)] }
          | Except.error e =>
            { emptyTrace with
              statCalls := [filePath]
              ignoreChecks := [filePath]
              uploads := [(filePath, externalIdOf filename)]
              errorLogs := [e] }

/-- The steady-state watch loop: notifications are handled as they
arrive, each by one callback invocation. The per-event handler is total
(every upload rejection is caught inside it), so the loop never ends
early. -/
def processEvents (env : WatchEnv) : List WatchEvent → List WatchTrace
  | [] => []
  | ev :: rest => handleWatchEvent env ev :: processEvents env rest

/-! ## Lifecycle stop hooks -/

/-- Outcome of `JSON.parse` plus the `typeof data?.pid === "number"` check
on the contents of `.osgrep/server.json` in `plugins/osgrep/hooks/stop.js`:
the parse may throw, or yield an object whose `pid` may or may not be a
number. -/
inductive LockParse
  | malformed
  | parsed (pid : Option Int)
deriving DecidableEq

/-- Observable effects of one run of a stop hook: pids directly signalled
from the lock file, whether the lock file was unlinked, whether the
`pkill -f "osgrep serve"` fallback was spawned, and whether the hook
itself failed. -/
structure StopEffects where
  killCalls : List Int
  unlinked : Bool
  pkillIssued : Bool
  failed : Bool
deriving DecidableEq

/-- `main` of `plugins/osgrep/hooks/stop.js`: read `.osgrep/server.json`
if it exists (`lock = none` models absence), kill the recorded pid when it
is a number (`killSucceeds` tells whether `process.kill` succeeds, i.e.
the process exists), unlink the lock file, and spawn the best-effort
`pkill -f "osgrep serve"` fallback whenever no process was killed via the
lock file. Every error is caught, so the hook never fails. -/
def stopJsMain (lock : Option LockParse) (killSucceeds : Int → Bool) : StopEffects :=
  match lock with
  | none =>
    { killCalls := [], unlinked := false, pkillIssued := true, failed := false }
  | some LockParse.malformed =>
    { killCalls := [], unlinked := true, pkillIssued := true, failed := false }
  | some (LockParse.parsed none) =>
    { killCalls := [], unlinked := true, pkillIssued := true, failed := false }
  | some (LockParse.parsed (some pid)) =>
    { killCalls := [pid], unlinked := true,
      pkillIssued := !killSucceeds pid, failed := false }

/-- `stop_osgrep.js` (SessionEnd hook): if the payload has a session id
and the pid file `osgrep-watch-<session_id>.pid` exists, `parseInt` its
content (`some none` models unparseable content, whose `NaN` kill throws
and is caught, signalling nothing), kill the pid, and unlink the file.
The outer try/catch swallows every error, so the hook never fails and has
no fallback kill. -/
def stopOsgrepMain (sessionId : Option String)
    (pidFile : Option (Option Int)) : StopEffects :=
  match sessionId with
  | none => { killCalls := [], unlinked := false, pkillIssued := false, failed := false }
  | some _ =>
    match pidFile with
    | none => { killCalls := [], unlinked := false, pkillIssued := false, failed := false }
    | some none => { killCalls := [], unlinked := true, pkillIssued := false, failed := false }
    | some (some pid) =>
      { killCalls := [pid], unlinked := true, pkillIssued := false, failed := false }

/-! ## Character-level lemmas for sanitization -/

theorem toNat_ofNat_valid {n : Nat} (h : n < 0xD800) : (Char.ofNat n).toNat = n := by
  have hv : n.isValidChar := Or.inl h
  simp [Char.ofNat, hv, Char.ofNatAux, Char.toNat, UInt32.ofNat', UInt32.toNat]

theorem sanitizeChar_mem (c : Char) : isLowerKeepChar (sanitizeChar c) = true := by
  unfold sanitizeChar
  split
  · next hkeep =>
    unfold Char.toLower
    dsimp only
    by_cases hup : c.toNat ≥ 65 ∧ c.toNat ≤ 90
    · rw [if_pos hup]
      have h32 : (Char.ofNat (Char.toNat c + 32)).toNat = Char.toNat c + 32 :=
        toNat_ofNat_valid (by omega)
      simp [isLowerKeepChar, h32]
      omega
    · rw [if_neg hup]
      simp [isKeepChar] at hkeep
      simp [isLowerKeepChar]
      omega
  · decide

theorem sanitizeChar_fix {c : Char} (h : isLowerKeepChar c = true) :
    sanitizeChar c = c := by
  simp [isLowerKeepChar] at h
  unfold sanitizeChar
  rw [if_pos]
  · unfold Char.toLower
    rw [if_neg]
    omega
  · simp [isKeepChar]
    omega

theorem sanitizeChar_idem (c : Char) : sanitizeChar (sanitizeChar c) = sanitizeChar c :=
  sanitizeChar_fix (sanitizeChar_mem c)

theorem mem_sanitizeStoreName {s : String} {c : Char}
    (hc : c ∈ (sanitizeStoreName s).data) : isLowerKeepChar c = true := by
  have hc' : c ∈ s.data.map sanitizeChar := hc
  obtain ⟨a, _, rfl⟩ := List.mem_map.mp hc'
  exact sanitizeChar_mem a

/-! ## C10 -/

/-- C10: `sanitizeStoreName` is idempotent and its output is drawn from a
restricted alphabet: for every input string, the result contains only
lowercase ASCII letters, digits, and hyphens, and applying
`sanitizeStoreName` to its own output returns that output unchanged. -/
theorem sanitizeStoreName_alphabet_idempotent (s : String) :
    (∀ c ∈ (sanitizeStoreName s).data, isLowerKeepChar c = true) ∧
    sanitizeStoreName (sanitizeStoreName s) = sanitizeStoreName s := by
  constructor
  · intro c hc
    exact mem_sanitizeStoreName hc
  · have hmap : ∀ l : List Char, (l.map sanitizeChar).map sanitizeChar = l.map sanitizeChar := by
      intro l
      induction l with
      | nil => rfl
      | cons a t ih => simp [ih, sanitizeChar_idem]
    show String.mk (((String.mk (s.data.map sanitizeChar)).data).map sanitizeChar) = _
    have hd : (String.mk (s.data.map sanitizeChar)).data = s.data.map sanitizeChar := rfl
    rw [hd, hmap]
    rfl

/-- Witness for C10 at the concrete input `"My Store!!"`. -/
theorem sanitizeStoreName_alphabet_idempotent_witness :
    (∀ c ∈ (sanitizeStoreName "My Store!!").data, isLowerKeepChar c = true) ∧
    sanitizeStoreName (sanitizeStoreName "My Store!!") = sanitizeStoreName "My Store!!" :=
  sanitizeStoreName_alphabet_idempotent "My Store!!"

/-! ## C7 -/

/-- C7: `getAutoStoreId` is a pure function of the resolved directory and
its (injected) git metadata. When the directory is inside a git
repository with a remote URL it returns the sanitized owner-repo form of
that URL — e.g. `https://github.com/Owner/Repo.git` sanitizes to
`owner-repo`, lowercased; otherwise it returns the sanitized basename of
the absolute path joined with the first 8 hex characters of the SHA-256
hash (the injected `hashHex`) of that absolute path. -/
theorem getAutoStoreId_pure_derivation :
    (∀ (hashHex : String → String) (git : GitMeta) (p root url : String),
      git.repositoryRoot p = some root → git.remoteUrl root = some url →
      getAutoStoreId hashHex git p = sanitizeStoreName (extractRepoInfoFromUrl url)) ∧
    (∀ (hashHex : String → String) (git : GitMeta) (p : String),
      (∀ root, git.repositoryRoot p = some root → git.remoteUrl root = none) →
      getAutoStoreId hashHex git p =
        sanitizeStoreName
          (basename p ++ "-" ++ String.mk ((hashHex p).data.take 8))) ∧
    sanitizeStoreName (extractRepoInfoFromUrl "https://github.com/Owner/Repo.git") =
      "owner-repo" := by
  refine ⟨?_, ?_, by decide⟩
  · intro hashHex git p root url h1 h2
    simp [getAutoStoreId, h1, h2]
  · intro hashHex git p h
    unfold getAutoStoreId
    cases hroot : git.repositoryRoot p with
    | none => rfl
    | some root =>
      have hr := h root hroot
      simp [hr, fallbackStoreId]

/-- Witness for C7: both branches at concrete accessors, and the concrete
remote example resolving to `owner-repo`. -/
theorem getAutoStoreId_pure_derivation_witness :
    getAutoStoreId (fun _ => "0123456789abcdef")
        ⟨fun _ => some "/r", fun _ => some "https://github.com/Owner/Repo.git"⟩ "/r" =
      sanitizeStoreName (extractRepoInfoFromUrl "https://github.com/Owner/Repo.git") ∧
    getAutoStoreId (fun _ => "0123456789abcdef") ⟨fun _ => none, fun _ => none⟩
        "/home/u/proj" =
      sanitizeStoreName
        (basename "/home/u/proj" ++ "-" ++
          String.mk (("0123456789abcdef" : String).data.take 8)) :=
  ⟨getAutoStoreId_pure_derivation.1 _ _ "/r" "/r" _ rfl rfl,
   getAutoStoreId_pure_derivation.2.1 _ _ "/home/u/proj" (fun _ h => by cases h)⟩

/-! ## Sync-engine lemmas -/

theorem indexDoc_mem_initialSync_calls {ign : String → Bool} {remote : List (String × Nat)}
    {files : List LocalFile} {root : String} {force : Bool} {p eId : String} {fp : Nat}
    (h : StoreCall.indexDoc p eId fp ∈ (initialSync ign remote files root force).calls) :
    ∃ f : LocalFile, f ∈ files ∧ ign f.path = false ∧
      needsUpload force remote (externalIdOf (relativeTo root f.path)) f.fingerprint = true ∧
      f.path = p ∧ eId = externalIdOf (relativeTo root f.path) ∧ fp = f.fingerprint := by
  unfold initialSync candidatesOf at h
  simp only [List.mem_append, List.mem_map, List.mem_filter] at h
  rcases h with (⟨f, ⟨⟨hfiles, hign⟩, hneed⟩, heq⟩ | ⟨i, _, heq⟩) | hmat
  · cases heq
    exact ⟨f, hfiles, by simpa using hign, hneed, rfl, rfl, rfl⟩
  · cases heq
  · split at hmat
    · simp at hmat
    · simp at hmat

theorem lookup_fingerprint_map {ext : LocalFile → String} :
    ∀ (l : List LocalFile), (l.map ext).Nodup → ∀ {f : LocalFile}, f ∈ l →
      (l.map (fun g => (ext g, g.fingerprint))).lookup (ext f) = some f.fingerprint := by
  intro l
  induction l with
  | nil => intro _ f hf; cases hf
  | cons g t ih =>
    intro hnd f hf
    have hnd' : (t.map ext).Nodup := (List.nodup_cons.mp hnd).2
    have hgnot : ext g ∉ t.map ext := (List.nodup_cons.mp hnd).1
    rcases List.mem_cons.mp hf with rfl | hft
    · simp [List.lookup]
    · have hne : (ext f == ext g) = false := by
        apply beq_false_of_ne
        intro hcontra
        exact hgnot (hcontra ▸ List.mem_map_of_mem ext hft)
      simp [List.lookup, hne]
      exact ih hnd' hft

theorem relativeTo_pathJoin (root filename : String) :
    relativeTo root (pathJoin root filename) = filename := by
  unfold relativeTo pathJoin
  have hdata : (root ++ "/" ++ filename).data = (root.data ++ ['/']) ++ filename.data := by
    simp
  rw [hdata]
  have hlen : root.data.length + 1 = (root.data ++ ['/']).length := by simp
  rw [hlen, List.drop_left]

/-! ## C1 -/

/-- C1: for every directory tree that yields zero candidate files after
ignore-filtering, `initialSync` against an empty collection returns
`total = 0` and `indexed = 0`, performs no `indexDocument` call, and
issues no index-materialization call: the whole remote-call trace is
empty. -/
theorem initialSync_noop_on_empty (ign : String → Bool) (files : List LocalFile)
    (root : String) (force : Bool) (hc : candidatesOf ign files = []) :
    (initialSync ign [] files root force).total = 0 ∧
    (initialSync ign [] files root force).indexed = 0 ∧
    (initialSync ign [] files root force).calls = [] := by
  unfold initialSync
  rw [hc]
  simp

/-- Witness for C1: a tree whose single file is ignored, synced against an
empty collection. -/
theorem initialSync_noop_on_empty_witness :
    candidatesOf (fun _ => true) [⟨"/r/ignored.ts", 7⟩] = [] ∧
    (initialSync (fun _ => true) [] [⟨"/r/ignored.ts", 7⟩] "/r" false).total = 0 ∧
    (initialSync (fun _ => true) [] [⟨"/r/ignored.ts", 7⟩] "/r" false).indexed = 0 ∧
    (initialSync (fun _ => true) [] [⟨"/r/ignored.ts", 7⟩] "/r" false).calls = [] :=
  ⟨rfl, initialSync_noop_on_empty (fun _ => true) [⟨"/r/ignored.ts", 7⟩] "/r" false rfl⟩

/-! ## C2 -/

/-- C2: for every file whose path the Ignore Classifier marks as ignored,
no `indexDocument` call is ever issued for that file — neither during an
initial sync pass (for any remote listing, force flag and tree) nor in
response to any watcher filesystem event (any event type, at any time, so
in particular after later modifications of the file). -/
theorem ignored_file_never_indexed :
    (∀ (ign : String → Bool) (remote : List (String × Nat)) (files : List LocalFile)
      (root : String) (force : Bool) (p : String), ign p = true →
      ∀ (eId : String) (fp : Nat),
        StoreCall.indexDoc p eId fp ∉ (initialSync ign remote files root force).calls) ∧
    (∀ (env : WatchEnv) (ev : WatchEvent) (filename : String),
      ev.rawFilename = some filename →
      env.isIgnored (pathJoin env.root filename) = true →
      (handleWatchEvent env ev).uploads = []) := by
  constructor
  · intro ign remote files root force p hp eId fp hmem
    obtain ⟨f, _, hign, _, hfp, _, _⟩ := indexDoc_mem_initialSync_calls hmem
    rw [hfp, hp] at hign
    cases hign
  · intro env ev filename hf hign
    by_cases hlen : filename.length = 0
    · simp [handleWatchEvent, hf, hlen, emptyTrace]
    · cases hst : env.stat (pathJoin env.root filename) with
      | none => simp [handleWatchEvent, hf, hlen, hst, emptyTrace]
      | some st =>
        by_cases hisf : st.isFile
        · simp [handleWatchEvent, hf, hlen, hst, hisf, hign, emptyTrace]
        · simp [handleWatchEvent, hf, hlen, hst, hisf, emptyTrace]

/-- Witness for C2: a concrete ignored path, checked against a sync pass
on a tree containing it and against a later watcher change event for
it. -/
theorem ignored_file_never_indexed_witness :
    ((fun s => s == "/r/ignored.ts") "/r/ignored.ts" = true) ∧
    StoreCall.indexDoc "/r/ignored.ts" "ignored.ts" 7 ∉
      (initialSync (fun s => s == "/r/ignored.ts") [] [⟨"/r/ignored.ts", 7⟩] "/r" false).calls ∧
    (handleWatchEvent
        ⟨"/r", fun _ => some ⟨true⟩, fun s => s == "/r/ignored.ts", fun _ => Except.ok ()⟩
        ⟨"change", some "ignored.ts"⟩).uploads = [] :=
  ⟨rfl,
   ignored_file_never_indexed.1 _ [] _ "/r" false "/r/ignored.ts" rfl "ignored.ts" 7,
   ignored_file_never_indexed.2
     ⟨"/r", fun _ => some ⟨true⟩, fun s => s == "/r/ignored.ts", fun _ => Except.ok ()⟩
     ⟨"change", some "ignored.ts"⟩ "ignored.ts" rfl rfl⟩

/-! ## C3 -/

/-- C3: running two consecutive `initialSync` passes with
`forceFullReindex = false` and no change to the local tree in between
(distinct files having distinct identifiers, per the data-model
invariant) yields zero `indexDocument` calls during the second pass: its
uploaded count is zero and its trace holds no index call. -/
theorem initialSync_rerun_dedups (ign : String → Bool) (files : List LocalFile)
    (root : String) (remote : List (String × Nat))
    (hnd : ((candidatesOf ign files).map
      (fun f => externalIdOf (relativeTo root f.path))).Nodup) :
    (initialSync ign (initialSync ign remote files root false).remoteAfter
        files root false).indexed = 0 ∧
    ∀ (p eId : String) (fp : Nat),
      StoreCall.indexDoc p eId fp ∉
        (initialSync ign (initialSync ign remote files root false).remoteAfter
          files root false).calls := by
  have hremote : (initialSync ign remote files root false).remoteAfter =
      (candidatesOf ign files).map
        (fun f => (externalIdOf (relativeTo root f.path), f.fingerprint)) := rfl
  have hneed : ∀ f ∈ candidatesOf ign files,
      needsUpload false (initialSync ign remote files root false).remoteAfter
        (externalIdOf (relativeTo root f.path)) f.fingerprint = false := by
    intro f hf
    rw [hremote]
    unfold needsUpload
    rw [lookup_fingerprint_map (candidatesOf ign files) hnd hf]
    simp
  constructor
  · show ((candidatesOf ign files).filter _).length = 0
    rw [List.length_eq_zero]
    rw [List.filter_eq_nil_iff]
    intro f hf
    simp [hneed f hf]
  · intro p eId fp hmem
    obtain ⟨f, hfiles, hign, hup, _, _, _⟩ := indexDoc_mem_initialSync_calls hmem
    have hcand : f ∈ candidatesOf ign files := by
      unfold candidatesOf
      rw [List.mem_filter]
      exact ⟨hfiles, by simp [hign]⟩
    rw [hneed f hcand] at hup
    cases hup

/-- Witness for C3: a two-file tree synced twice from an empty remote
listing; the second pass uploads nothing. -/
theorem initialSync_rerun_dedups_witness :
    (((candidatesOf (fun _ => false) [⟨"/r/a.ts", 1⟩, ⟨"/r/b.ts", 2⟩]).map
        (fun f => externalIdOf (relativeTo "/r" f.path))).Nodup) ∧
    (initialSync (fun _ => false)
        (initialSync (fun _ => false) [] [⟨"/r/a.ts", 1⟩, ⟨"/r/b.ts", 2⟩] "/r" false).remoteAfter
        [⟨"/r/a.ts", 1⟩, ⟨"/r/b.ts", 2⟩] "/r" false).indexed = 0 ∧
    StoreCall.indexDoc "/r/a.ts" "a.ts" 1 ∉
      (initialSync (fun _ => false)
        (initialSync (fun _ => false) [] [⟨"/r/a.ts", 1⟩, ⟨"/r/b.ts", 2⟩] "/r" false).remoteAfter
        [⟨"/r/a.ts", 1⟩, ⟨"/r/b.ts", 2⟩] "/r" false).calls :=
  ⟨by decide,
   (initialSync_rerun_dedups (fun _ => false) [⟨"/r/a.ts", 1⟩, ⟨"/r/b.ts", 2⟩] "/r" []
      (by decide)).1,
   (initialSync_rerun_dedups (fun _ => false) [⟨"/r/a.ts", 1⟩, ⟨"/r/b.ts", 2⟩] "/r" []
      (by decide)).2 "/r/a.ts" "a.ts" 1⟩

/-! ## C6 -/

/-- C6: external-identifier derivation is a pure function of the
root-relative path — injective on distinct root-relative paths — and both
engines use it identically: the watcher's joined path resolves back to
the same root-relative name, every `indexDocument` call of a sync pass
carries the identifier derived from the indexed file's root-relative
path, and every watcher upload carries the identifier derived from the
event's root-relative filename. -/
theorem externalId_pure_injective :
    (∀ p q : String, p ≠ q → externalIdOf p ≠ externalIdOf q) ∧
    (∀ root filename : String, relativeTo root (pathJoin root filename) = filename) ∧
    (∀ (ign : String → Bool) (remote : List (String × Nat)) (files : List LocalFile)
      (root : String) (force : Bool) (p eId : String) (fp : Nat),
      StoreCall.indexDoc p eId fp ∈ (initialSync ign remote files root force).calls →
      eId = externalIdOf (relativeTo root p)) ∧
    (∀ (env : WatchEnv) (ev : WatchEvent) (filename : String),
      ev.rawFilename = some filename →
      ∀ u ∈ (handleWatchEvent env ev).uploads, u.2 = externalIdOf filename) := by
  refine ⟨fun p q h => h, relativeTo_pathJoin, ?_, ?_⟩
  · intro ign remote files root force p eId fp hmem
    obtain ⟨f, _, _, _, hfp, hid, _⟩ := indexDoc_mem_initialSync_calls hmem
    rw [hid, hfp]
  · intro env ev filename hf u hu
    by_cases hlen : filename.length = 0
    · simp [handleWatchEvent, hf, hlen, emptyTrace] at hu
    · cases hst : env.stat (pathJoin env.root filename) with
      | none => simp [handleWatchEvent, hf, hlen, hst, emptyTrace] at hu
      | some st =>
        by_cases hisf : st.isFile
        · by_cases hign : env.isIgnored (pathJoin env.root filename)
          · simp [handleWatchEvent, hf, hlen, hst, hisf, hign, emptyTrace] at hu
          · cases houc : env.uploadOutcome (pathJoin env.root filename) with
            | ok _ =>
              simp [handleWatchEvent, hf, hlen, hst, hisf, hign, houc, emptyTrace] at hu
              rw [hu]
            | error e =>
              simp [handleWatchEvent, hf, hlen, hst, hisf, hign, houc, emptyTrace] at hu
              rw [hu]
        · simp [handleWatchEvent, hf, hlen, hst, hisf, emptyTrace] at hu

/-- Witness for C6: distinct concrete paths get distinct identifiers, the
join/relative round trip at concrete values, and a concrete sync index
call carries the derived identifier. -/
theorem externalId_pure_injective_witness :
    externalIdOf "a.ts" ≠ externalIdOf "b.ts" ∧
    relativeTo "/r" (pathJoin "/r" "sub/a.ts") = "sub/a.ts" ∧
    ((handleWatchEvent
        ⟨"/r", fun _ => some ⟨true⟩, fun _ => false, fun _ => Except.ok ()⟩
        ⟨"change", some "a.ts"⟩).uploads.all (fun u => u.2 == externalIdOf "a.ts")) = true :=
  ⟨externalId_pure_injective.1 "a.ts" "b.ts" (by decide),
   externalId_pure_injective.2.1 "/r" "sub/a.ts",
   by decide⟩

/-! ## C9 -/

/-- C9: for every watcher filesystem event whose reported filename is
absent (`null`/`undefined`) or empty, the watch callback returns without
issuing any filesystem stat, ignore check, or remote call — its effect
trace is empty (and the embedded callback is a total function, so it
cannot throw). -/
theorem watcher_empty_filename_no_effects (env : WatchEnv) (ev : WatchEvent)
    (h : ev.rawFilename = none ∨ ev.rawFilename = some "") :
    handleWatchEvent env ev = emptyTrace := by
  rcases h with h | h <;> simp [handleWatchEvent, h]

/-- Witness for C9 at a concrete environment, for both the absent and the
empty filename. -/
theorem watcher_empty_filename_no_effects_witness :
    handleWatchEvent
        ⟨"/r", fun _ => some ⟨true⟩, fun _ => false, fun _ => Except.ok ()⟩
        ⟨"change", none⟩ = emptyTrace ∧
    handleWatchEvent
        ⟨"/r", fun _ => some ⟨true⟩, fun _ => false, fun _ => Except.ok ()⟩
        ⟨"rename", some ""⟩ = emptyTrace :=
  ⟨watcher_empty_filename_no_effects _ _ (Or.inl rfl),
   watcher_empty_filename_no_effects _ _ (Or.inr rfl)⟩

/-! ## C4 -/

/-- C4: for every watcher notification whose resolved path does not exist
on disk (`statSync` throws) or is not a regular file at handling time,
the callback issues no remote call for that event: no index (upload) and
no delete. -/
theorem watcher_nonfile_no_remote_call (env : WatchEnv) (ev : WatchEvent)
    (filename : String) (hf : ev.rawFilename = some filename)
    (h : env.stat (pathJoin env.root filename) = none ∨
      ∃ st, env.stat (pathJoin env.root filename) = some st ∧ st.isFile = false) :
    (handleWatchEvent env ev).uploads = [] ∧ (handleWatchEvent env ev).deletes = [] := by
  by_cases hlen : filename.length = 0
  · simp [handleWatchEvent, hf, hlen, emptyTrace]
  · rcases h with hst | ⟨st, hst, hnf⟩
    · simp [handleWatchEvent, hf, hlen, hst, emptyTrace]
    · simp [handleWatchEvent, hf, hlen, hst, hnf, emptyTrace]

/-- Witness for C4: a concrete event for a path whose stat fails, and one
for a path that is a directory. -/
theorem watcher_nonfile_no_remote_call_witness :
    ((handleWatchEvent
        ⟨"/r", fun _ => none, fun _ => false, fun _ => Except.ok ()⟩
        ⟨"rename", some "gone.ts"⟩).uploads = [] ∧
      (handleWatchEvent
        ⟨"/r", fun _ => none, fun _ => false, fun _ => Except.ok ()⟩
        ⟨"rename", some "gone.ts"⟩).deletes = []) ∧
    ((handleWatchEvent
        ⟨"/r", fun _ => some ⟨false⟩, fun _ => false, fun _ => Except.ok ()⟩
        ⟨"change", some "somedir"⟩).uploads = [] ∧
      (handleWatchEvent
        ⟨"/r", fun _ => some ⟨false⟩, fun _ => false, fun _ => Except.ok ()⟩
        ⟨"change", some "somedir"⟩).deletes = []) :=
  ⟨watcher_nonfile_no_remote_call _ _ "gone.ts" rfl (Or.inl rfl),
   watcher_nonfile_no_remote_call _ _ "somedir" rfl (Or.inr ⟨⟨false⟩, rfl, rfl⟩)⟩

/-! ## C5 -/

/-- C5: a watcher-triggered per-file upload failure is caught and logged
and does not terminate the watch loop. A rejected upload leaves the
callback with the error in its log trace (never rethrown — the handler is
total), the loop processes the remaining events unchanged after any
event, and every event of a burst is handled exactly once regardless of
upload outcomes. -/
theorem watcher_upload_failure_contained :
    (∀ (env : WatchEnv) (ev : WatchEvent) (filename : String) (st : FileStat) (e : String),
      ev.rawFilename = some filename → filename.length ≠ 0 →
      env.stat (pathJoin env.root filename) = some st → st.isFile = true →
      env.isIgnored (pathJoin env.root filename) = false →
      env.uploadOutcome (pathJoin env.root filename) = Except.error e →
      handleWatchEvent env ev =
        { statCalls := [pathJoin env.root filename]
          ignoreChecks := [pathJoin env.root filename]
          uploads := [(pathJoin env.root filename, externalIdOf filename)]
          deletes := []
          errorLogs := [e] }) ∧
    (∀ (env : WatchEnv) (ev : WatchEvent) (rest : List WatchEvent),
      processEvents env (ev :: rest) = handleWatchEvent env ev :: processEvents env rest) ∧
    (∀ (env : WatchEnv) (evs : List WatchEvent),
      (processEvents env evs).length = evs.length) := by
  refine ⟨?_, fun _ _ _ => rfl, ?_⟩
  · intro env ev filename st e hf hlen hst hisf hign hup
    simp [handleWatchEvent, hf, hlen, hst, hisf, hign, hup, emptyTrace]
  · intro env evs
    induction evs with
    | nil => rfl
    | cons ev rest ih => simp [processEvents, ih]

/-- Witness for C5: a concrete two-event burst whose first upload rejects;
the failure is logged and the second event is still handled. -/
theorem watcher_upload_failure_contained_witness :
    handleWatchEvent
        ⟨"/r", fun _ => some ⟨true⟩, fun _ => false, fun _ => Except.error "boom"⟩
        ⟨"change", some "a.ts"⟩ =
      { statCalls := ["/r/a.ts"], ignoreChecks := ["/r/a.ts"],
        uploads := [("/r/a.ts", externalIdOf "a.ts")], deletes := [],
        errorLogs := ["boom"] } ∧
    (processEvents
        ⟨"/r", fun _ => some ⟨true⟩, fun _ => false, fun _ => Except.error "boom"⟩
        [⟨"change", some "a.ts"⟩, ⟨"change", some "b.ts"⟩]).length = 2 :=
  ⟨watcher_upload_failure_contained.1 _ ⟨"change", some "a.ts"⟩ "a.ts" ⟨true⟩ "boom"
      rfl (by decide) rfl rfl rfl rfl,
   watcher_upload_failure_contained.2.2 _ _⟩

/-! ## C8 -/

/-- Counterexample to C8 as stated: with no lock file at all (and no
process reachable from it), `main` of `plugins/osgrep/hooks/stop.js`
still spawns the best-effort `pkill -f "osgrep serve"` fallback — a
process-termination call — so the stop action does not complete "without
terminating any process". -/
theorem stopJs_pkill_despite_missing_lock :
    ¬ ((stopJsMain none (fun _ => false)).killCalls = [] ∧
       (stopJsMain none (fun _ => false)).failed = false ∧
       (stopJsMain none (fun _ => false)).pkillIssued = false) := by
  decide

/-- C8 (amended): absence or unparseable content of the lock/PID file is
not an error: both stop hooks complete without failing, and no process is
terminated via the lock file. `stop_osgrep.js` then terminates nothing at
all; `plugins/osgrep/hooks/stop.js` additionally issues its best-effort
`pkill -f "osgrep serve"` fallback whenever the lock file killed
nothing. -/
theorem stop_hooks_missing_lock_not_error :
    (∀ sid : Option String,
      (stopOsgrepMain sid none).killCalls = [] ∧
      (stopOsgrepMain sid none).pkillIssued = false ∧
      (stopOsgrepMain sid none).failed = false) ∧
    (∀ sid : Option String,
      (stopOsgrepMain sid (some none)).killCalls = [] ∧
      (stopOsgrepMain sid (some none)).pkillIssued = false ∧
      (stopOsgrepMain sid (some none)).failed = false) ∧
    (∀ ks : Int → Bool,
      (stopJsMain none ks).killCalls = [] ∧
      (stopJsMain none ks).failed = false ∧
      (stopJsMain none ks).pkillIssued = true) ∧
    (∀ ks : Int → Bool,
      (stopJsMain (some LockParse.malformed) ks).killCalls = [] ∧
      (stopJsMain (some LockParse.malformed) ks).failed = false ∧
      (stopJsMain (some LockParse.malformed) ks).pkillIssued = true) := by
  refine ⟨fun sid => ?_, fun sid => ?_, fun ks => ⟨rfl, rfl, rfl⟩, fun ks => ⟨rfl, rfl, rfl⟩⟩ <;>
    cases sid <;> exact ⟨rfl, rfl, rfl⟩

end Osgrep
